import Mathlib

set_option maxHeartbeats 1000000

/-!
Shallow embedding of the `miuz` finite-state-machine runtime
(`src/index.ts`: classes `MachineConfiguration` and `MachineInstance`).

Contexts are JavaScript objects with string keys; we model them as ordered
association lists (JS objects preserve insertion order), with JSON-like
values.  Mutation of a field is in-place update; assigning an absent key
appends it, exactly as JS property assignment does.  Hooks, actions and
guard predicates are arbitrary functions, as in the source.  Subscribers
are modelled by opaque identities (JS compares them with `!==`); a
notification records which subscriber was called, with which snapshot and
event type.  Exceptions (`throw new Error(...)`) are modelled by an error
component in the outcome of each operation; the machine object survives a
throw with whatever partial mutations had already been applied, as a JS
instance does.  `setTimeout` callbacks are modelled as pending timers: a
transition appends one timer per `after` entry, and the host event loop
firing a timer is the separate operation `fireTimer`.
-/

namespace Miuz

/-- JSON-like runtime values stored in a machine context: strings, integer
numbers, arrays and `undefined`. -/
inductive JVal : Type where
  | str : String → JVal
  | num : Int → JVal
  | arr : List JVal → JVal
  | undef : JVal

mutual

/-- Decidable equality of `JVal`, by mutual structural recursion with list
equality (the automatic derivation does not handle the nested occurrence). -/
def JVal.decEq : (a b : JVal) → Decidable (a = b)
  | .str a, .str b =>
      match String.decEq a b with
      | isTrue h => isTrue (by rw [h])
      | isFalse h => isFalse (by intro hh; cases hh; exact h rfl)
  | .num a, .num b =>
      match Int.decEq a b with
      | isTrue h => isTrue (by rw [h])
      | isFalse h => isFalse (by intro hh; cases hh; exact h rfl)
  | .arr a, .arr b =>
      match JVal.decEqList a b with
      | isTrue h => isTrue (by rw [h])
      | isFalse h => isFalse (by intro hh; cases hh; exact h rfl)
  | .undef, .undef => isTrue rfl
  | .str _, .num _ => isFalse (by intro hh; cases hh)
  | .str _, .arr _ => isFalse (by intro hh; cases hh)
  | .str _, .undef => isFalse (by intro hh; cases hh)
  | .num _, .str _ => isFalse (by intro hh; cases hh)
  | .num _, .arr _ => isFalse (by intro hh; cases hh)
  | .num _, .undef => isFalse (by intro hh; cases hh)
  | .arr _, .str _ => isFalse (by intro hh; cases hh)
  | .arr _, .num _ => isFalse (by intro hh; cases hh)
  | .arr _, .undef => isFalse (by intro hh; cases hh)
  | .undef, .str _ => isFalse (by intro hh; cases hh)
  | .undef, .num _ => isFalse (by intro hh; cases hh)
  | .undef, .arr _ => isFalse (by intro hh; cases hh)

/-- Decidable equality of lists of `JVal`. -/
def JVal.decEqList : (a b : List JVal) → Decidable (a = b)
  | [], [] => isTrue rfl
  | [], _ :: _ => isFalse (by intro hh; cases hh)
  | _ :: _, [] => isFalse (by intro hh; cases hh)
  | x :: xs, y :: ys =>
      match JVal.decEq x y, JVal.decEqList xs ys with
      | isTrue h1, isTrue h2 => isTrue (by rw [h1, h2])
      | isFalse h1, _ => isFalse (by intro hh; injection hh with h3 h4; exact h1 h3)
      | isTrue _, isFalse h2 => isFalse (by intro hh; injection hh with h3 h4; exact h2 h4)

end

instance : DecidableEq JVal := JVal.decEq

/-- A machine context: a JavaScript object modelled as an ordered list of
(field name, value) pairs, in insertion order. -/
abbrev Context := List (String × JVal)

/-- Reading a property of a JS object: the value of the first matching key,
`undefined` when the key is absent. -/
def ctxGet : Context → String → JVal
  | [], _ => JVal.undef
  | (k, v) :: rest, key => if k = key then v else ctxGet rest key

/-- Assigning a property of a JS object: update the existing key in place,
or append the key at the end when it is absent. -/
def ctxSet : Context → String → JVal → Context
  | [], key, v => [(key, v)]
  | (k, w) :: rest, key, v =>
      if k = key then (k, v) :: rest else (k, w) :: ctxSet rest key v

/-- Lookup in a JS object used as a table (`statesImplementation[stateID]`,
`currentStateEvents[event]`): `none` models `undefined`. -/
def lookupKey {α : Type} : List (String × α) → String → Option α
  | [], _ => none
  | (k, v) :: rest, key => if k = key then some v else lookupKey rest key

/-- An `on` event handler: `{ target?: Keys; action?: (context, data?) => void }`. -/
structure Handler where
  target : Option String
  action : Option (Context → JVal → Context)

/-- An `after` entry: `{ target?: Keys; action?: (context) => void }`.  The
source invokes the action through `executeAction` with the data argument
omitted, so we keep the two-argument shape and pass `undefined`. -/
structure AfterEntry where
  target : Option String
  action : Option (Context → JVal → Context)

/-- A state definition (`TStateObject`): optional entry hook, optional exit
hook, optional event table, optional delayed-transition table. -/
structure StateObject where
  entry : Option (Context → Context)
  exit : Option (Context → Context)
  «on» : Option (List (String × Handler))
  after : Option (List (String × AfterEntry))

/-- A scheduled `setTimeout` callback.  The closure built in `setState`
captures only the delay key, the entry's action and the entry's target —
nothing about which state scheduled it or whether that state is still
current. -/
structure Timer where
  delay : String
  target : Option String
  action : Option (Context → JVal → Context)

/-- The notification event type passed to subscribers. -/
inductive EvType : Type where
  | stateChange : EvType
  | contextChange : EvType
deriving DecidableEq, Repr

/-- One delivered notification: which subscriber was invoked, with which
snapshot (`{ state, context }`) and which event type. -/
structure Notif where
  sub : Nat
  state : String
  context : Context
  ev : EvType
deriving DecidableEq

/-- The three `throw new Error(...)` conditions of the source, with the data
interpolated into the message.  `setState` interpolates `this.stateID` (the
current state, not the missing target) into the `UnknownState` message. -/
inductive Err : Type where
  | unknownState : String → Err
  | missingEventTable : String → Err
  | unknownEvent : String → String → Err
deriving DecidableEq, Repr

/-- The mutable fields of a `MachineInstance`, plus the list of pending
`setTimeout` callbacks scheduled on its behalf. -/
structure Machine where
  statesImplementation : List (String × StateObject)
  initialState : String
  stateID : String
  stateObject : StateObject
  context : Context
  guards : List (String × (Context → Bool))
  subscribers : List Nat
  pending : List Timer

/-- The outcome of one engine operation: the exception raised (if any), the
machine as left behind (a JS instance survives a throw with its partial
mutations), and the notifications delivered during the call, in order. -/
structure Outcome where
  err : Option Err
  m : Machine
  notifs : List Notif

/-- The `this.subscribers.forEach(subscriber => subscriber({context, state}, type))`
fan-out: one notification per subscriber, in subscription order. -/
def notifyAll (m : Machine) (t : EvType) : List Notif :=
  m.subscribers.map (fun i => ⟨i, m.stateID, m.context, t⟩)

/-- Run an optional hook (`exitEvent && exitEvent(this.context)`). -/
def applyHook : Option (Context → Context) → Context → Context
  | some f, c => f c
  | none, c => c

/-- The guard loop of `executeAction`: for each guard key in order, evaluate
its predicate against the live context and, when it returns `false`, assign
that key's value from the pre-action clone. -/
def applyGuards : List (String × (Context → Bool)) → Context → Context → Context
  | [], _, cur => cur
  | (k, p) :: gs, pre, cur =>
      applyGuards gs pre (if p cur then cur else ctxSet cur k (ctxGet pre k))

/-- The timers scheduled by `setState` for the `after` table of the state
just entered, in iteration order. -/
def afterTimers (ob : StateObject) : List Timer :=
  match ob.after with
  | none => []
  | some l => l.map (fun e => ⟨e.1, e.2.target, e.2.action⟩)

/-- `MachineInstance.setState`: throw `UnknownState` when the target is not
a key of the state table; otherwise run the old state's exit hook when the
target differs from the current state, switch the current-state pointer,
run the new state's entry hook, notify every subscriber with `State-Change`,
and schedule one timer per `after` entry of the new state. -/
def setState (m : Machine) (target : String) : Outcome :=
  match lookupKey m.statesImplementation target with
  | none => ⟨some (Err.unknownState m.stateID), m, []⟩
  | some newObj =>
      let ctx1 := if target = m.stateID then m.context
                  else applyHook m.stateObject.exit m.context
      let ctx2 := applyHook newObj.entry ctx1
      let m2 : Machine :=
        { m with stateID := target, stateObject := newObj, context := ctx2 }
      let ns := notifyAll m2 EvType.stateChange
      ⟨none, { m2 with pending := m2.pending ++ afterTimers newObj }, ns⟩

/-- `MachineInstance.executeAction`: clone the context, run the action on
the live context, run the guard loop, and when the serialized result differs
from the serialized clone notify every subscriber with `Context-Change`. -/
def executeAction (m : Machine) (action : Context → JVal → Context) (data : JVal) : Outcome :=
  let cloned := m.context
  let ctx1 := action m.context data
  let ctx2 := applyGuards m.guards cloned ctx1
  let m2 : Machine := { m with context := ctx2 }
  ⟨none, m2, if cloned = ctx2 then [] else notifyAll m2 EvType.contextChange⟩

/-- `MachineInstance.send` (the closure returned by `send()`): throw
`MissingEventTable` when the current state has no `on` table, throw
`UnknownEvent` when the table lacks the event, otherwise run the handler's
action (if any) with the rest-argument array as data, then transition to the
handler's target (if any). -/
def send (m : Machine) (event : String) (data : List JVal) : Outcome :=
  match m.stateObject.«on» with
  | none => ⟨some (Err.missingEventTable m.stateID), m, []⟩
  | some table =>
      match lookupKey table event with
      | none => ⟨some (Err.unknownEvent m.stateID event), m, []⟩
      | some h =>
          let o1 := match h.action with
            | some a => executeAction m a (JVal.arr data)
            | none => ⟨none, m, []⟩
          match h.target with
          | some t =>
              let o2 := setState o1.m t
              ⟨o2.err, o2.m, o1.notifs ++ o2.notifs⟩
          | none => o1

/-- `MachineInstance.start`: transition into the configured initial state. -/
def start (m : Machine) : Outcome :=
  setState m m.initialState

/-- The host event loop running the `i`-th pending `setTimeout` callback:
the timer leaves the queue, its action (if any) runs through
`executeAction` with `undefined` data, then its target (if any) is entered
through `setState` — with no check of which state is current. -/
def fireTimer (m : Machine) (i : Nat) : Outcome :=
  match m.pending[i]? with
  | none => ⟨none, m, []⟩
  | some t =>
      let m0 : Machine := { m with pending := m.pending.eraseIdx i }
      let o1 := match t.action with
        | some a => executeAction m0 a JVal.undef
        | none => ⟨none, m0, []⟩
      match t.target with
      | some tgt =>
          let o2 := setState o1.m tgt
          ⟨o2.err, o2.m, o1.notifs ++ o2.notifs⟩
      | none => o1

/-- `MachineInstance.subscribe`: push the subscriber onto the list. -/
def subscribe (m : Machine) (id : Nat) : Machine :=
  { m with subscribers := m.subscribers ++ [id] }

/-- The closure returned by `subscribe`: replace the subscriber list by the
filter keeping every entry not identical to the subscribed callback. -/
def unsubscribe (m : Machine) (id : Nat) : Machine :=
  { m with subscribers := m.subscribers.filter (fun s => s != id) }

/-- `MachineInstance.getSnapshot`: the `{ state, context }` pair. -/
def getSnapshot (m : Machine) : String × Context :=
  (m.stateID, m.context)

/-- The `MachineInstance` constructor: the current-state pointer starts at
the initial state and the state object is resolved by table lookup (an
absent key gives JS `undefined`; we model that degenerate object by the
empty state definition). -/
def newMachineInstance (impl : List (String × StateObject)) (initial : String)
    (ctx : Context) (guards : List (String × (Context → Bool))) : Machine :=
  { statesImplementation := impl
    initialState := initial
    stateID := initial
    stateObject := (lookupKey impl initial).getD ⟨none, none, none, none⟩
    context := ctx
    guards := guards
    subscribers := []
    pending := [] }

/-- The number of notifications of a given event type in a delivery log. -/
def countEv (l : List Notif) (t : EvType) : Nat :=
  (l.filter (fun n => n.ev == t)).length

/-- The data captured by the `MachineConfiguration` constructor. -/
structure MachineConfigurationData where
  stateDeclaration : List String
  statesImplementation : List (String × StateObject)
  initialState : String
  context : Context

/-- The argument object of `MachineConfiguration.create`.  Its properties
are modelled as `Option`s because at run time a caller can pass an object
missing either property, which destructures to `undefined`. -/
structure CreateArgs where
  context : Option Context
  initialState : Option String

/-- The arguments handed to the `MachineInstance` constructor by `create`. -/
structure CreatedInstance where
  statesImplementation : List (String × StateObject)
  initialState : Option String
  context : Option Context

/-- The `structuredClone` call of `create`, modelled as a value copy: in a
pure embedding a deep clone of an immutable value is the value itself. -/
def structuredCloneCtx (c : Context) : Context := c

/-- `MachineConfiguration.create`: the default value
`{ context: this.context, initialState: this.initialState }` applies only
when the whole argument object is omitted; a supplied object is destructured
as-is, so a property it lacks is `undefined`, not the build-time value. -/
def MachineConfigurationData.create (cfg : MachineConfigurationData)
    (args : Option CreateArgs) : CreatedInstance :=
  let a : CreateArgs := match args with
    | none => ⟨some cfg.context, some cfg.initialState⟩
    | some a => a
  ⟨cfg.statesImplementation, a.initialState, a.context.map structuredCloneCtx⟩

/-- Alternative guard semantics in which every predicate judges the raw
post-action context.  This definition follows the spec's step-3 wording
(evaluate each predicate "against the post-mutation context") read
non-sequentially; it exists only to contrast with `applyGuards`, which is
the loop of the source. -/
def applyGuardsSpecRaw (gs : List (String × (Context → Bool)))
    (pre cur : Context) : Context :=
  gs.foldl (fun acc g => if g.2 cur then acc else ctxSet acc g.1 (ctxGet pre g.1)) cur

/-! Concrete configuration of the spec's worked example (claim C1): states
`reading` and `editing` over context `{ committed: '', value: '' }`, with
one subscriber registered before `start`. -/

/-- The `reading` state of the worked example. -/
def c1_readingObj : StateObject :=
  ⟨none, none, some [("edit", ⟨some "editing", none⟩)], none⟩

/-- The `editing` state of the worked example: `save` commits the draft and
returns to `reading`; `edit` stores the event data into `value`. -/
def c1_editingObj : StateObject :=
  ⟨none, none,
    some [("save", ⟨some "reading", some (fun c _ => ctxSet c "committed" (ctxGet c "value"))⟩),
          ("edit", ⟨none, some (fun c d => ctxSet c "value" d)⟩)],
    none⟩

/-- The state table of the worked example. -/
def c1_impl : List (String × StateObject) :=
  [("reading", c1_readingObj), ("editing", c1_editingObj)]

/-- The worked example's instance, with subscriber `0` registered. -/
def c1_m0 : Machine :=
  subscribe (newMachineInstance c1_impl "reading"
    [("committed", JVal.str ""), ("value", JVal.str "")] []) 0

/-- Step 1 of the worked example: `start()`. -/
def c1_o1 : Outcome := start c1_m0

/-- Step 2 of the worked example: `send('edit')`. -/
def c1_o2 : Outcome := send c1_o1.m "edit" []

/-- Step 3 of the worked example: `send('edit', 'A')`. -/
def c1_o3 : Outcome := send c1_o2.m "edit" [JVal.str "A"]

/-- Step 4 of the worked example: `send('save')`. -/
def c1_o4 : Outcome := send c1_o3.m "save" []

/-- All notifications delivered over the worked example's sequence. -/
def c1_notifs : List Notif :=
  c1_o1.notifs ++ c1_o2.notifs ++ c1_o3.notifs ++ c1_o4.notifs

/-! Concrete instance for claim C5: an action that rebuilds the context
object with the same two field values in the opposite key order, as a JS
action does by deleting and re-assigning a property. -/

/-- An action that leaves both field values unchanged but reorders the keys. -/
def c5_swap : Context → JVal → Context :=
  fun _ _ => [("b", JVal.num 2), ("a", JVal.num 1)]

/-- The single state of the C5 instance. -/
def c5_sObj : StateObject :=
  ⟨none, none, some [("swap", ⟨none, some c5_swap⟩)], none⟩

/-- The C5 instance: context `{ a: 1, b: 2 }`, one subscriber. -/
def c5_m0 : Machine :=
  subscribe (newMachineInstance [("s", c5_sObj)] "s"
    [("a", JVal.num 1), ("b", JVal.num 2)] []) 0

/-- The outcome of `send('swap')` on the C5 instance. -/
def c5_out : Outcome := send c5_m0 "swap" []

/-! Concrete instance for claim C7: an event whose handler has both an
action and a target that is not a key of the state table. -/

/-- The action of the C7 handler: set `x` to `1`. -/
def c7_act : Context → JVal → Context := fun c _ => ctxSet c "x" (JVal.num 1)

/-- The C7 handler: an action together with a target that is not a state. -/
def c7_h : Handler := ⟨some "nowhere", some c7_act⟩

/-- The single state of the C7 instance: `go` mutates `x` and then targets
the nonexistent state `nowhere`. -/
def c7_sObj : StateObject := ⟨none, none, some [("go", c7_h)], none⟩

/-- The C7 instance. -/
def c7_m0 : Machine :=
  subscribe (newMachineInstance [("s", c7_sObj)] "s" [("x", JVal.num 0)] []) 0

/-- The outcome of `send('go')` on the C7 instance. -/
def c7_out : Outcome := send c7_m0 "go" []

/-! Concrete instance for claim C8: state `a` schedules a 100 ms timer
targeting `c`; the machine leaves `a` for `b` before the timer fires. -/

/-- State `a`: one event handler to `b`, one `after` entry to `c`. -/
def c8_aObj : StateObject :=
  ⟨none, none, some [("go", ⟨some "b", none⟩)], some [("100", ⟨some "c", none⟩)]⟩

/-- State `b` of the C8 instance. -/
def c8_bObj : StateObject := ⟨none, none, none, none⟩

/-- State `c` of the C8 instance. -/
def c8_cObj : StateObject := ⟨none, none, none, none⟩

/-- The state table of the C8 instance. -/
def c8_impl : List (String × StateObject) :=
  [("a", c8_aObj), ("b", c8_bObj), ("c", c8_cObj)]

/-- The C8 instance, with subscriber `0`. -/
def c8_m0 : Machine := subscribe (newMachineInstance c8_impl "a" [] []) 0

/-- Entering `a` schedules the timer. -/
def c8_o1 : Outcome := start c8_m0

/-- Leaving `a` for `b`; the timer stays pending. -/
def c8_o2 : Outcome := send c8_o1.m "go" []

/-- The timer fires while the machine is in `b`. -/
def c8_o3 : Outcome := fireTimer c8_o2.m 0

/-! Concrete data for claims C4 and C10: guards on `a` and `b` that both
test whether field `a` is zero. -/

/-- The guard predicate of the C10 example: field `a` must be `0`. -/
def c10_p : Context → Bool := fun c => ctxGet c "a" == JVal.num 0

/-- The guard set of the C10 example: the same predicate guards `a` and `b`. -/
def c10_guards : List (String × (Context → Bool)) := [("a", c10_p), ("b", c10_p)]

/-- The pre-action context of the C10 example. -/
def c10_pre : Context := [("a", JVal.num 0), ("b", JVal.num 0)]

/-- The post-action context of the C10 example: the action set both fields
to `5`. -/
def c10_cur : Context := [("a", JVal.num 5), ("b", JVal.num 5)]

/-! Concrete instances for the remaining witnesses. -/

/-- A state with no `on` table at all (claim C2). -/
def c2_noOnObj : StateObject := ⟨none, none, none, none⟩

/-- An instance sitting in a state without an `on` table. -/
def c2_m0 : Machine := newMachineInstance [("s", c2_noOnObj)] "s" [] []

/-- A state with an empty `on` table (claim C2). -/
def c2_emptyOnObj : StateObject := ⟨none, none, some [], none⟩

/-- An instance sitting in a state whose `on` table is empty. -/
def c2_m1 : Machine := newMachineInstance [("s", c2_emptyOnObj)] "s" [] []

/-- State `a` of the C3 instance, with entry and exit hooks that write to
the `log` field. -/
def c3_aObj : StateObject :=
  ⟨some (fun c => ctxSet c "log" (JVal.str "enterA")),
   some (fun c => ctxSet c "log" (JVal.str "exitA")),
   some [("go", ⟨some "b", none⟩), ("self", ⟨some "a", none⟩)], none⟩

/-- State `b` of the C3 instance, with an entry hook. -/
def c3_bObj : StateObject :=
  ⟨some (fun c => ctxSet c "log" (JVal.str "enterB")), none, none, none⟩

/-- The C3 instance, in state `a`, with subscriber `0`. -/
def c3_m0 : Machine :=
  subscribe (newMachineInstance [("a", c3_aObj), ("b", c3_bObj)] "a"
    [("log", JVal.str "")] []) 0

/-- The guard predicate of the C4 witness: field `a` must be `0`. -/
def c4_p : Context → Bool := fun c => ctxGet c "a" == JVal.num 0

/-- The action of the C4 witness: mutate the guarded field `a` and the
unguarded field `u` in the same action. -/
def c4_act : Context → JVal → Context :=
  fun c _ => ctxSet (ctxSet c "a" (JVal.num 5)) "u" (JVal.num 9)

/-- The C4 witness instance: context `{ a: 0, u: 0 }`, one guard on `a`. -/
def c4_m0 : Machine :=
  newMachineInstance [("s", c2_noOnObj)] "s"
    [("a", JVal.num 0), ("u", JVal.num 0)] [("a", c4_p)]

/-- The action of the C5 amended-claim witness: set `x` to `1`. -/
def c5w_act : Context → JVal → Context := fun c _ => ctxSet c "x" (JVal.num 1)

/-- The C5 amended-claim witness instance: context `{ x: 0 }`, one
subscriber, no guards. -/
def c5w_m0 : Machine :=
  subscribe (newMachineInstance [("s", c2_noOnObj)] "s" [("x", JVal.num 0)] []) 0

/-- A concrete configuration for claim C9. -/
def c9_cfg : MachineConfigurationData :=
  ⟨["reading"], [("reading", c1_readingObj)], "reading", [("x", JVal.num 0)]⟩

/-! Basic lemmas about context field access and the guard loop. -/

/-- Reading a field right after assigning it yields the assigned value. -/
theorem ctxGet_ctxSet_self (c : Context) (k : String) (v : JVal) :
    ctxGet (ctxSet c k v) k = v := by
  induction c with
  | nil => simp [ctxSet, ctxGet]
  | cons kv rest ih =>
      obtain ⟨k1, v1⟩ := kv
      by_cases h : k1 = k <;> simp [ctxSet, ctxGet, h, ih]

/-- Assigning one field leaves every other field unchanged. -/
theorem ctxGet_ctxSet_ne (c : Context) (k k' : String) (v : JVal) (h : k' ≠ k) :
    ctxGet (ctxSet c k v) k' = ctxGet c k' := by
  have hk : k ≠ k' := Ne.symm h
  induction c with
  | nil => simp [ctxSet, ctxGet, hk]
  | cons kv rest ih =>
      obtain ⟨k1, v1⟩ := kv
      by_cases h1 : k1 = k
      · subst h1
        simp [ctxSet, ctxGet, hk]
      · by_cases h2 : k1 = k' <;> simp [ctxSet, ctxGet, h1, h2, h, ih]

/-- The guard loop over a concatenation runs the first block and then the
second block on the block-one result, with the same pre-action snapshot. -/
theorem applyGuards_append (gs1 gs2 : List (String × (Context → Bool)))
    (pre cur : Context) :
    applyGuards (gs1 ++ gs2) pre cur = applyGuards gs2 pre (applyGuards gs1 pre cur) := by
  induction gs1 generalizing cur with
  | nil => rfl
  | cons g gs ih =>
      obtain ⟨k, p⟩ := g
      simp [applyGuards, ih]

/-- The guard loop never changes a field that no guard in the list covers. -/
theorem applyGuards_get_of_notMem (gs : List (String × (Context → Bool)))
    (pre cur : Context) (k : String) (h : ∀ g ∈ gs, g.1 ≠ k) :
    ctxGet (applyGuards gs pre cur) k = ctxGet cur k := by
  induction gs generalizing cur with
  | nil => rfl
  | cons g gs ih =>
      obtain ⟨k1, p⟩ := g
      have hk1 : k1 ≠ k := h (k1, p) (by simp)
      simp only [applyGuards]
      rw [ih _ (fun g hg => h g (by simp [hg]))]
      by_cases hp : p cur <;>
        simp [hp, ctxGet_ctxSet_ne _ _ _ _ (Ne.symm hk1)]

/-! Claim C1 — the spec's worked example. -/

/-- C1 is false on the code: running `start(); send('edit'); send('edit','A');
send('save')` on the worked example does not end with snapshot
`{ state: 'reading', context: { committed: 'A', value: 'A' } }`, nor does a
subscriber see two `State-Change` and one `Context-Change` notifications.
The actual run is recorded in the amended theorem. -/
theorem c1_counterexample :
    ¬ (getSnapshot c1_o4.m
         = ("reading", [("committed", JVal.str "A"), ("value", JVal.str "A")])
       ∧ countEv c1_notifs EvType.stateChange = 2
       ∧ countEv c1_notifs EvType.contextChange = 1) := by
  decide

/-- C1 amended: the run completes without an error and ends in state
`reading` with context `{ committed: ['A'], value: ['A'] }` — `send` passes
its rest-argument array to the action, so the payload arrives wrapped in a
one-element array — and a subscriber registered before `start()` receives
three `State-Change` notifications (`start`, `edit`, `save` each transition)
and two `Context-Change` notifications (`send('edit','A')` mutates `value`;
the `save` action mutates `committed`). -/
theorem c1_actual_run :
    c1_o1.err = none ∧ c1_o2.err = none ∧ c1_o3.err = none ∧ c1_o4.err = none
    ∧ getSnapshot c1_o4.m
        = ("reading",
           [("committed", JVal.arr [JVal.str "A"]), ("value", JVal.arr [JVal.str "A"])])
    ∧ countEv c1_notifs EvType.stateChange = 3
    ∧ countEv c1_notifs EvType.contextChange = 2 := by
  decide

/-! Claim C10 — guards are evaluated sequentially against the live context. -/

/-- C10: the guard loop handles guards one at a time in guard-key order,
each later predicate judging the context left by earlier reverts.  The first
conjunct is the step equation of the loop; the remaining conjuncts show a
concrete two-guard instance in which the second guard passes only because
the first guard's revert is already visible, so the code keeps `b = 5`,
whereas judging every predicate against the raw post-action context would
also revert `b`. -/
theorem c10_guards_sequential_live :
    (∀ (k : String) (p : Context → Bool) (gs : List (String × (Context → Bool)))
        (pre cur : Context),
        applyGuards ((k, p) :: gs) pre cur
          = applyGuards gs pre (if p cur then cur else ctxSet cur k (ctxGet pre k)))
    ∧ applyGuards c10_guards c10_pre c10_cur = [("a", JVal.num 0), ("b", JVal.num 5)]
    ∧ applyGuardsSpecRaw c10_guards c10_pre c10_cur = [("a", JVal.num 0), ("b", JVal.num 0)]
    ∧ applyGuards c10_guards c10_pre c10_cur
        ≠ applyGuardsSpecRaw c10_guards c10_pre c10_cur := by
  refine ⟨fun k p gs pre cur => rfl, by decide, by decide, by decide⟩

/-! Claim C9 — defaulting in `MachineConfiguration.create`. -/

/-- C9 is false on the code: supplying only the context to `create` does not
default the initial state to the build-time value — the default object is
used only when the whole argument is omitted, so the missing property is
`undefined`. -/
theorem c9_counterexample :
    (c9_cfg.create (some ⟨some [("x", JVal.num 7)], none⟩)).initialState
      ≠ some c9_cfg.initialState := by
  decide

/-- C9 amended: the build-time context and initial state are used only when
the argument object is omitted entirely; a supplied argument object is
destructured as-is, each missing property becoming `undefined` rather than
the build-time value; the chosen context goes through `structuredClone`
(modelled as a value copy). -/
theorem c9_create_defaulting :
    (∀ cfg : MachineConfigurationData,
        cfg.create none
          = ⟨cfg.statesImplementation, some cfg.initialState,
             some (structuredCloneCtx cfg.context)⟩)
    ∧ (∀ (cfg : MachineConfigurationData) (a : CreateArgs),
        cfg.create (some a)
          = ⟨cfg.statesImplementation, a.initialState,
             a.context.map structuredCloneCtx⟩) := by
  exact ⟨fun cfg => rfl, fun cfg a => rfl⟩

/-! Claim C4 — field-level rollback in `executeAction`. -/

/-- C4: in an action execution with guards, a guarded field whose predicate
fails (evaluated at its turn in the loop) is reverted, alone, to its value
in the pre-action snapshot, while a guarded field whose predicate passes
keeps the value the action gave it, and every field not covered by any
guard keeps the value the action gave it — field-level rollback, never a
transactional rollback of the whole action. -/
theorem c4_field_level_rollback
    (m : Machine) (a : Context → JVal → Context) (d : JVal)
    (gs1 gs2 : List (String × (Context → Bool))) (k : String) (p : Context → Bool)
    (hg : m.guards = gs1 ++ (k, p) :: gs2)
    (h1 : ∀ g ∈ gs1, g.1 ≠ k) (h2 : ∀ g ∈ gs2, g.1 ≠ k) :
    (ctxGet (executeAction m a d).m.context k
      = if p (applyGuards gs1 m.context (a m.context d)) = true
        then ctxGet (a m.context d) k
        else ctxGet m.context k)
    ∧ (∀ k', (∀ g ∈ m.guards, g.1 ≠ k') →
        ctxGet (executeAction m a d).m.context k' = ctxGet (a m.context d) k') := by
  have hctx : (executeAction m a d).m.context
      = applyGuards m.guards m.context (a m.context d) := rfl
  constructor
  · rw [hctx, hg, applyGuards_append]
    simp only [applyGuards]
    rw [applyGuards_get_of_notMem gs2 _ _ k h2]
    by_cases hp : p (applyGuards gs1 m.context (a m.context d))
    · simp [hp, applyGuards_get_of_notMem gs1 _ _ k h1]
    · simp [hp, ctxGet_ctxSet_self]
  · intro k' hk'
    rw [hctx]
    exact applyGuards_get_of_notMem m.guards _ _ k' hk'

/-- C4 witness: on the concrete instance with guard `a = 0` and an action
that sets the guarded `a` to `5` and the unguarded `u` to `9`, the guarded
field reverts to `0` while the unguarded mutation persists. -/
theorem c4_witness :
    ctxGet (executeAction c4_m0 c4_act JVal.undef).m.context "a" = ctxGet c4_m0.context "a"
    ∧ ctxGet (executeAction c4_m0 c4_act JVal.undef).m.context "u"
        = ctxGet (c4_act c4_m0.context JVal.undef) "u" := by
  have h := c4_field_level_rollback c4_m0 c4_act JVal.undef [] [] "a" c4_p rfl
    (by intro g hg; cases hg) (by intro g hg; cases hg)
  refine ⟨h.1.trans (by decide), h.2 "u" (by decide)⟩

/-! Claim C3 — hook sequencing and notification in `setState`. -/

/-- C3: for a transition to a target present in the state table, `setState`
succeeds; the context passed on is first transformed by the old state's
exit hook exactly when the target differs from the current state (and left
alone on a self-transition), then by the new state's entry hook in every
case; and exactly one `State-Change` notification is delivered per
subscriber, synchronously, in subscription order, carrying the new state
and post-hook context. -/
theorem c3_setState_transition
    (m : Machine) (tgt : String) (obj : StateObject)
    (h : lookupKey m.statesImplementation tgt = some obj) :
    (setState m tgt).err = none
    ∧ (setState m tgt).m.stateID = tgt
    ∧ (setState m tgt).m.stateObject = obj
    ∧ (setState m tgt).m.context
        = applyHook obj.entry
            (if tgt = m.stateID then m.context else applyHook m.stateObject.exit m.context)
    ∧ (setState m tgt).notifs
        = m.subscribers.map (fun i =>
            ⟨i, tgt,
             applyHook obj.entry
               (if tgt = m.stateID then m.context else applyHook m.stateObject.exit m.context),
             EvType.stateChange⟩) := by
  simp [setState, h, notifyAll]

/-- C3 witness: the concrete transition from `a` (exit hook) to `b` (entry
hook) on the C3 instance. -/
theorem c3_witness :
    (setState c3_m0 "b").err = none
    ∧ (setState c3_m0 "b").m.stateID = "b"
    ∧ (setState c3_m0 "b").m.stateObject = c3_bObj
    ∧ (setState c3_m0 "b").m.context
        = applyHook c3_bObj.entry
            (if "b" = c3_m0.stateID then c3_m0.context
             else applyHook c3_m0.stateObject.exit c3_m0.context)
    ∧ (setState c3_m0 "b").notifs
        = c3_m0.subscribers.map (fun i =>
            ⟨i, "b",
             applyHook c3_bObj.entry
               (if "b" = c3_m0.stateID then c3_m0.context
                else applyHook c3_m0.stateObject.exit c3_m0.context),
             EvType.stateChange⟩) :=
  c3_setState_transition c3_m0 "b" c3_bObj rfl

/-! Claim C2 — the two dispatch failures of `send`. -/

/-- The only condition `setState` can raise is `UnknownState`. -/
theorem setState_err_spec (m : Machine) (t : String) :
    (setState m t).err = none ∨ (setState m t).err = some (Err.unknownState m.stateID) := by
  cases hst : lookupKey m.statesImplementation t with
  | none => exact Or.inr (by simp [setState, hst])
  | some obj => exact Or.inl (by simp [setState, hst])

/-- `executeAction` never raises a condition. -/
theorem executeAction_err_none (m : Machine) (a : Context → JVal → Context) (d : JVal) :
    (executeAction m a d).err = none := rfl

/-- When the current state's `on` table contains the event, `send` either
returns normally or raises `UnknownState` from the transition — never one
of the two dispatch conditions. -/
theorem send_found_err (m : Machine) (ev : String) (d : List JVal)
    (tbl : List (String × Handler)) (h : Handler)
    (hon : m.stateObject.«on» = some tbl) (hlk : lookupKey tbl ev = some h) :
    (send m ev d).err = none ∨ (send m ev d).err = some (Err.unknownState m.stateID) := by
  obtain ⟨ht, ha⟩ := h
  simp only [send, hon, hlk]
  cases ha with
  | none =>
      cases ht with
      | none => exact Or.inl rfl
      | some t => simpa using setState_err_spec m t
  | some a =>
      cases ht with
      | none => exact Or.inl rfl
      | some t => simpa using setState_err_spec (executeAction m a (JVal.arr d)).m t

/-- C2: `send` raises `MissingEventTable` exactly when the current state's
definition has no `on` table at all, raises `UnknownEvent` exactly when the
`on` table exists but lacks the event, and raises neither of the two when
the table contains the event; in both failure cases the machine is returned
untouched and no notification is delivered, so no action ran and no
transition was performed. -/
theorem c2_send_dispatch_failures (m : Machine) (ev : String) (d : List JVal) :
    (m.stateObject.«on» = none →
        send m ev d = ⟨some (Err.missingEventTable m.stateID), m, []⟩)
    ∧ (∀ tbl, m.stateObject.«on» = some tbl → lookupKey tbl ev = none →
        send m ev d = ⟨some (Err.unknownEvent m.stateID ev), m, []⟩)
    ∧ (∀ tbl h, m.stateObject.«on» = some tbl → lookupKey tbl ev = some h →
        (∀ s, (send m ev d).err ≠ some (Err.missingEventTable s))
        ∧ (∀ s e, (send m ev d).err ≠ some (Err.unknownEvent s e)))
    ∧ ((∃ s, (send m ev d).err = some (Err.missingEventTable s)) →
        m.stateObject.«on» = none)
    ∧ ((∃ s e, (send m ev d).err = some (Err.unknownEvent s e)) →
        ∃ tbl, m.stateObject.«on» = some tbl ∧ lookupKey tbl ev = none) := by
  refine ⟨?_, ?_, ?_, ?_, ?_⟩
  · intro hon; simp [send, hon]
  · intro tbl hon hlk; simp [send, hon, hlk]
  · intro tbl h hon hlk
    rcases send_found_err m ev d tbl h hon hlk with he | he <;>
      refine ⟨fun s hs => ?_, fun s e hs => ?_⟩ <;> simp [he] at hs
  · rintro ⟨s, hs⟩
    cases hon : m.stateObject.«on» with
    | none => rfl
    | some tbl =>
        cases hlk : lookupKey tbl ev with
        | none =>
            have he : (send m ev d).err = some (Err.unknownEvent m.stateID ev) := by
              simp [send, hon, hlk]
            simp [he] at hs
        | some h =>
            rcases send_found_err m ev d tbl h hon hlk with he | he <;>
              simp [he] at hs
  · rintro ⟨s, e, hs⟩
    cases hon : m.stateObject.«on» with
    | none =>
        have he : (send m ev d).err = some (Err.missingEventTable m.stateID) := by
          simp [send, hon]
        simp [he] at hs
    | some tbl =>
        cases hlk : lookupKey tbl ev with
        | none => exact ⟨tbl, rfl, hlk⟩
        | some h =>
            rcases send_found_err m ev d tbl h hon hlk with he | he <;>
              simp [he] at hs

/-- C2 witness: on a state with no `on` table the dispatch raises
`MissingEventTable` and leaves the instance untouched; on a state with an
empty `on` table it raises `UnknownEvent` and leaves the instance
untouched. -/
theorem c2_witness :
    send c2_m0 "x" [] = ⟨some (Err.missingEventTable "s"), c2_m0, []⟩
    ∧ send c2_m1 "x" [] = ⟨some (Err.unknownEvent "s" "x"), c2_m1, []⟩ := by
  constructor
  · exact (c2_send_dispatch_failures c2_m0 "x" []).1 rfl
  · exact (c2_send_dispatch_failures c2_m1 "x" []).2.1 [] rfl rfl

/-! Claim C7 — a failed target resolution after a completed action. -/

/-- C7: when an event's handler has both an action and a target that is not
a key of the state table, `send` first runs the action (whose context
mutations and `Context-Change` notification persist) and then raises
`UnknownState`; the machine left behind is exactly the post-action machine —
same state identifier, same resolved state object, same pending timers,
only the context changed — so no exit or entry hook ran for the failed
transition and the action+target pair is not atomic. -/
theorem c7_send_not_atomic
    (m : Machine) (ev : String) (d : List JVal) (tbl : List (String × Handler))
    (a : Context → JVal → Context) (tgt : String)
    (hon : m.stateObject.«on» = some tbl)
    (hlk : lookupKey tbl ev = some ⟨some tgt, some a⟩)
    (hmiss : lookupKey m.statesImplementation tgt = none) :
    send m ev d = ⟨some (Err.unknownState m.stateID),
                   (executeAction m a (JVal.arr d)).m,
                   (executeAction m a (JVal.arr d)).notifs⟩
    ∧ (executeAction m a (JVal.arr d)).m.stateID = m.stateID
    ∧ (executeAction m a (JVal.arr d)).m.stateObject = m.stateObject
    ∧ (executeAction m a (JVal.arr d)).m.pending = m.pending
    ∧ (executeAction m a (JVal.arr d)).m.context
        = applyGuards m.guards m.context (a m.context (JVal.arr d)) := by
  have hmiss2 : lookupKey (executeAction m a (JVal.arr d)).m.statesImplementation tgt = none :=
    hmiss
  refine ⟨?_, ?_, ?_, ?_, ?_⟩
  · simp [send, hon, hlk, setState, hmiss2]
    rfl
  · rfl
  · rfl
  · rfl
  · rfl

/-- C7 witness: the concrete `go` event whose action sets `x := 1` and whose
target `nowhere` does not exist: the call raises `UnknownState`, the context
mutation and its `Context-Change` notification persist, and the state is
unchanged. -/
theorem c7_witness :
    send c7_m0 "go" [] = ⟨some (Err.unknownState c7_m0.stateID),
                          (executeAction c7_m0 c7_act (JVal.arr [])).m,
                          (executeAction c7_m0 c7_act (JVal.arr [])).notifs⟩
    ∧ (executeAction c7_m0 c7_act (JVal.arr [])).m.stateID = c7_m0.stateID
    ∧ (executeAction c7_m0 c7_act (JVal.arr [])).m.stateObject = c7_m0.stateObject
    ∧ (executeAction c7_m0 c7_act (JVal.arr [])).m.pending = c7_m0.pending
    ∧ (executeAction c7_m0 c7_act (JVal.arr [])).m.context
        = applyGuards c7_m0.guards c7_m0.context (c7_act c7_m0.context (JVal.arr [])) :=
  c7_send_not_atomic c7_m0 "go" [] [("go", c7_h)] c7_act "nowhere" rfl rfl rfl

/-! Claim C5 — when `Context-Change` fires. -/

/-- Unfolding of `executeAction` into its outcome components. -/
theorem executeAction_eq (m : Machine) (a : Context → JVal → Context) (d : JVal) :
    executeAction m a d
      = ⟨none, { m with context := applyGuards m.guards m.context (a m.context d) },
         if m.context = applyGuards m.guards m.context (a m.context d) then []
         else m.subscribers.map (fun i =>
           ⟨i, m.stateID, applyGuards m.guards m.context (a m.context d),
            EvType.contextChange⟩)⟩ := rfl

/-- Two contexts with the same key sequence, free of duplicate keys, are
equal exactly when every field reads the same value. -/
theorem ctx_eq_iff_pointwise (c1 c2 : Context)
    (hk : c1.map Prod.fst = c2.map Prod.fst)
    (hnd : (c2.map Prod.fst).Nodup) :
    c1 = c2 ↔ ∀ k ∈ c2.map Prod.fst, ctxGet c1 k = ctxGet c2 k := by
  induction c2 generalizing c1 with
  | nil =>
      cases c1 with
      | nil => simp
      | cons kv t => simp at hk
  | cons kv t2 ih =>
      obtain ⟨k, v⟩ := kv
      cases c1 with
      | nil => simp at hk
      | cons kv1 t1 =>
          obtain ⟨k1, v1⟩ := kv1
          simp only [List.map_cons, List.cons.injEq] at hk
          obtain ⟨hk1, hkt⟩ := hk
          subst hk1
          simp only [List.map_cons, List.nodup_cons] at hnd
          obtain ⟨hknot, hndt⟩ := hnd
          constructor
          · intro he
            cases he
            intro k' _
            rfl
          · intro h
            have hv : v1 = v := by
              have hh := h k1 (by simp)
              simpa [ctxGet] using hh
            subst hv
            have ht : t1 = t2 := by
              refine (ih t1 hkt hndt).mpr ?_
              intro k' hk'
              have hne : k1 ≠ k' := fun hh => hknot (hh ▸ hk')
              have hh := h k' (by simp [hk'])
              simpa [ctxGet, hne] using hh
            rw [ht]

/-- C5 is false on the code: the comparison is `JSON.stringify` equality,
which is sensitive to field order.  On the concrete instance whose action
rebuilds the context with the same field values in the opposite key order —
as a JS action does by deleting and re-assigning a property — a
`Context-Change` notification is emitted even though no field's final value
differs from its pre-action value over the context's field set `{a, b}`. -/
theorem c5_counterexample :
    ¬ ((c5_out.notifs ≠ []) ↔
        (ctxGet c5_out.m.context "a" ≠ ctxGet c5_m0.context "a"
         ∨ ctxGet c5_out.m.context "b" ≠ ctxGet c5_m0.context "b")) := by
  decide

/-- C5 amended: a `Context-Change` notification is delivered to every
subscriber exactly when the post-guard context differs from the pre-action
snapshot as an ordered structure (serialization equality).  Provided the
action and guards preserve the key sequence of a duplicate-free context —
the situation the spec's per-field wording presumes — this is equivalent to
some field's final value differing from its pre-action value, and when the
context changed the notification carries the current state and new context
to every subscriber in subscription order. -/
theorem c5_contextChange_iff
    (m : Machine) (a : Context → JVal → Context) (d : JVal)
    (hnd : (m.context.map Prod.fst).Nodup)
    (hk : ((executeAction m a d).m.context).map Prod.fst = m.context.map Prod.fst) :
    ((executeAction m a d).notifs ≠ [] ↔
      m.subscribers ≠ [] ∧ ∃ k ∈ m.context.map Prod.fst,
        ctxGet (executeAction m a d).m.context k ≠ ctxGet m.context k)
    ∧ ((executeAction m a d).m.context ≠ m.context →
        (executeAction m a d).notifs
          = m.subscribers.map (fun i =>
              ⟨i, m.stateID, (executeAction m a d).m.context, EvType.contextChange⟩)) := by
  have hctx : (executeAction m a d).m.context
      = applyGuards m.guards m.context (a m.context d) := rfl
  by_cases hc : m.context = applyGuards m.guards m.context (a m.context d)
  · have hn : (executeAction m a d).notifs = [] := by
      rw [executeAction_eq]
      exact if_pos hc
    have heq : (executeAction m a d).m.context = m.context := by rw [hctx, ← hc]
    refine ⟨?_, fun hne2 => absurd heq hne2⟩
    rw [hn]
    constructor
    · intro hfalse; exact absurd rfl hfalse
    · rintro ⟨hs, k, hmem, hne⟩
      exact absurd (show ctxGet (executeAction m a d).m.context k = ctxGet m.context k
        by rw [heq]) hne
  · have hn : (executeAction m a d).notifs
        = m.subscribers.map (fun i =>
            ⟨i, m.stateID, applyGuards m.guards m.context (a m.context d),
             EvType.contextChange⟩) := by
      rw [executeAction_eq]
      exact if_neg hc
    constructor
    · rw [hn]
      constructor
      · intro hne
        refine ⟨fun hs => hne (by simp [hs]), ?_⟩
        have hne2 : (executeAction m a d).m.context ≠ m.context := by
          rw [hctx]; exact fun hh => hc hh.symm
        have hnall : ¬ ∀ k ∈ m.context.map Prod.fst,
            ctxGet (executeAction m a d).m.context k = ctxGet m.context k :=
          fun hall => hne2 ((ctx_eq_iff_pointwise _ _ hk hnd).mpr hall)
        push_neg at hnall
        exact hnall
      · rintro ⟨hs, _⟩ hh
        exact hs (List.map_eq_nil_iff.mp hh)
    · intro _
      rw [hn, hctx]

/-- C5 witness for the amended theorem: on a context `{ x: 0 }` with one
subscriber and an action setting `x := 1`, the `Context-Change` notification
fires. -/
theorem c5_witness : (executeAction c5w_m0 c5w_act JVal.undef).notifs ≠ [] := by
  have h := c5_contextChange_iff c5w_m0 c5w_act JVal.undef (by decide) (by decide)
  exact h.1.mpr ⟨by decide, "x", by decide, by decide⟩

/-! Claim C8 — delayed-transition timers. -/

/-- C8: every successful transition appends one timer per entry of the new
state's `after` table to the pending queue without removing any existing
timer; `send` never shrinks the pending queue (no cancellation on exit); and
firing a pending timer removes exactly that timer, runs its action (if any)
through `executeAction`, then transitions to its target (if any) — the fired
timer carries no reference to the state that scheduled it and the current
state is never consulted before acting. -/
theorem c8_after_timers
    (m : Machine) (tgt : String) (obj : StateObject) (ev : String) (d : List JVal)
    (i : Nat) (t : Timer)
    (hobj : lookupKey m.statesImplementation tgt = some obj)
    (ht : m.pending[i]? = some t) :
    (setState m tgt).m.pending = m.pending ++ afterTimers obj
    ∧ (∃ ns, (send m ev d).m.pending = m.pending ++ ns)
    ∧ fireTimer m i =
        (let m0 : Machine := { m with pending := m.pending.eraseIdx i }
         let o1 : Outcome := match t.action with
           | some a => executeAction m0 a JVal.undef
           | none => ⟨none, m0, []⟩
         match t.target with
         | some tgt2 => ⟨(setState o1.m tgt2).err, (setState o1.m tgt2).m,
                         o1.notifs ++ (setState o1.m tgt2).notifs⟩
         | none => o1) := by
  refine ⟨by simp [setState, hobj], ?_, ?_⟩
  · cases hon : m.stateObject.«on» with
    | none => exact ⟨[], by simp [send, hon]⟩
    | some tbl =>
        cases hlk : lookupKey tbl ev with
        | none => exact ⟨[], by simp [send, hon, hlk]⟩
        | some h =>
            obtain ⟨ht2, ha⟩ := h
            cases ht2 with
            | none =>
                cases ha with
                | none => exact ⟨[], by simp [send, hon, hlk]⟩
                | some a => exact ⟨[], by simp [send, hon, hlk, executeAction]⟩
            | some t2 =>
                cases ha with
                | none =>
                    cases hst : lookupKey m.statesImplementation t2 with
                    | none => exact ⟨[], by simp [send, hon, hlk, setState, hst]⟩
                    | some obj2 =>
                        exact ⟨afterTimers obj2, by simp [send, hon, hlk, setState, hst]⟩
                | some a =>
                    cases hst : lookupKey m.statesImplementation t2 with
                    | none =>
                        exact ⟨[], by simp [send, hon, hlk, setState, executeAction, hst]⟩
                    | some obj2 =>
                        exact ⟨afterTimers obj2,
                          by simp [send, hon, hlk, setState, executeAction, hst]⟩
  · simp only [fireTimer, ht]

/-- C8 witness: the concrete scenario — entering `a` schedules its `after`
timer, re-entering `a` would append a second timer while keeping the first
(no cancellation), the machine has meanwhile moved to `b` with the timer
still pending, and firing the timer from `b` still transitions to `c`. -/
theorem c8_witness :
    (setState c8_o2.m "a").m.pending = c8_o2.m.pending ++ afterTimers c8_aObj
    ∧ c8_o2.m.stateID = "b"
    ∧ c8_o2.m.pending[0]? = some ⟨"100", some "c", none⟩
    ∧ c8_o3.err = none ∧ c8_o3.m.stateID = "c" :=
  ⟨(c8_after_timers c8_o2.m "a" c8_aObj "go" [] 0 ⟨"100", some "c", none⟩ rfl rfl).1,
   by decide, rfl, by decide, by decide⟩

/-! Claim C6 — unsubscribing one subscriber leaves the others unaffected. -/

/-- Filtering a fan-out by subscriber identity is the fan-out over the
filtered subscriber list. -/
theorem map_filter_sub (l : List Nat) (id : Nat) (st : String) (c : Context) (t : EvType) :
    (l.map (fun i => (⟨i, st, c, t⟩ : Notif))).filter (fun n => n.sub != id)
      = (l.filter (fun s => s != id)).map (fun i => (⟨i, st, c, t⟩ : Notif)) := by
  induction l with
  | nil => rfl
  | cons x xs ih =>
      by_cases hx : x = id
      · subst hx; simp [List.filter_cons, ih]
      · simp [List.filter_cons, hx, ih]

/-- `executeAction` on an instance with one subscriber removed produces the
same machine (minus that subscriber) and the same notifications minus the
ones addressed to it. -/
theorem executeAction_unsubscribe (m : Machine) (id : Nat)
    (a : Context → JVal → Context) (d : JVal) :
    (executeAction (unsubscribe m id) a d).err = (executeAction m a d).err
    ∧ (executeAction (unsubscribe m id) a d).m = unsubscribe (executeAction m a d).m id
    ∧ (executeAction (unsubscribe m id) a d).notifs
        = (executeAction m a d).notifs.filter (fun n => n.sub != id) := by
  obtain ⟨impl, ini, sid, sob, ctx, gds, subs, pend⟩ := m
  refine ⟨rfl, rfl, ?_⟩
  simp only [executeAction_eq, unsubscribe]
  by_cases hc : ctx = applyGuards gds ctx (a ctx d)
  · simp only [if_pos hc, List.filter_nil]
  · simp only [if_neg hc]
    exact (map_filter_sub subs id sid (applyGuards gds ctx (a ctx d))
      EvType.contextChange).symm

/-- `setState` on an instance with one subscriber removed produces the same
machine (minus that subscriber) and the same notifications minus the ones
addressed to it. -/
theorem setState_unsubscribe (m : Machine) (id : Nat) (tgt : String) :
    (setState (unsubscribe m id) tgt).err = (setState m tgt).err
    ∧ (setState (unsubscribe m id) tgt).m = unsubscribe (setState m tgt).m id
    ∧ (setState (unsubscribe m id) tgt).notifs
        = (setState m tgt).notifs.filter (fun n => n.sub != id) := by
  obtain ⟨impl, ini, sid, sob, ctx, gds, subs, pend⟩ := m
  cases hst : lookupKey impl tgt with
  | none => refine ⟨?_, ?_, ?_⟩ <;> simp [setState, unsubscribe, hst]
  | some obj =>
      refine ⟨?_, ?_, ?_⟩
      · simp [setState, unsubscribe, hst]
      · simp [setState, unsubscribe, hst]
      · simp only [setState, unsubscribe, notifyAll, hst]
        exact (map_filter_sub subs id tgt
          (applyHook obj.entry (if tgt = sid then ctx else applyHook sob.exit ctx))
          EvType.stateChange).symm

/-- `send` on an instance with one subscriber removed produces the same
machine (minus that subscriber) and the same notifications minus the ones
addressed to it. -/
theorem send_unsubscribe (m : Machine) (id : Nat) (ev : String) (d : List JVal) :
    (send (unsubscribe m id) ev d).err = (send m ev d).err
    ∧ (send (unsubscribe m id) ev d).m = unsubscribe (send m ev d).m id
    ∧ (send (unsubscribe m id) ev d).notifs
        = (send m ev d).notifs.filter (fun n => n.sub != id) := by
  have hon2 : (unsubscribe m id).stateObject = m.stateObject := rfl
  cases hon : m.stateObject.«on» with
  | none =>
      simp [send, hon, hon2, unsubscribe]
  | some tbl =>
      cases hlk : lookupKey tbl ev with
      | none => simp [send, hon, hon2, hlk, unsubscribe]
      | some h =>
          obtain ⟨ht2, ha⟩ := h
          cases ha with
          | none =>
              cases ht2 with
              | none => simp [send, hon, hon2, hlk, unsubscribe]
              | some t2 =>
                  have hs := setState_unsubscribe m id t2
                  simp only [send, hon, hon2, hlk]
                  exact ⟨hs.1, hs.2.1, by simp [hs.2.2]⟩
          | some a =>
              have hea := executeAction_unsubscribe m id a (JVal.arr d)
              cases ht2 with
              | none =>
                  simp only [send, hon, hon2, hlk]
                  exact hea
              | some t2 =>
                  have hs := setState_unsubscribe (executeAction m a (JVal.arr d)).m id t2
                  simp only [send, hon, hon2, hlk]
                  refine ⟨?_, ?_, ?_⟩
                  · show (setState (executeAction (unsubscribe m id) a (JVal.arr d)).m t2).err
                        = (setState (executeAction m a (JVal.arr d)).m t2).err
                    rw [hea.2.1]; exact hs.1
                  · show (setState (executeAction (unsubscribe m id) a (JVal.arr d)).m t2).m
                        = unsubscribe (setState (executeAction m a (JVal.arr d)).m t2).m id
                    rw [hea.2.1]; exact hs.2.1
                  · show (executeAction (unsubscribe m id) a (JVal.arr d)).notifs
                          ++ (setState (executeAction (unsubscribe m id) a (JVal.arr d)).m t2).notifs
                        = ((executeAction m a (JVal.arr d)).notifs
                          ++ (setState (executeAction m a (JVal.arr d)).m t2).notifs).filter
                            (fun n => n.sub != id)
                    rw [List.filter_append, hea.2.2, hea.2.1, hs.2.2]

/-- The host firing a timer on an instance with one subscriber removed
produces the same machine (minus that subscriber) and the same
notifications minus the ones addressed to it. -/
theorem fireTimer_unsubscribe (m : Machine) (id : Nat) (i : Nat) :
    (fireTimer (unsubscribe m id) i).err = (fireTimer m i).err
    ∧ (fireTimer (unsubscribe m id) i).m = unsubscribe (fireTimer m i).m id
    ∧ (fireTimer (unsubscribe m id) i).notifs
        = (fireTimer m i).notifs.filter (fun n => n.sub != id) := by
  have hp : (unsubscribe m id).pending = m.pending := rfl
  cases hpt : m.pending[i]? with
  | none => simp [fireTimer, hp, hpt, unsubscribe]
  | some t =>
      obtain ⟨dl, tg, ac⟩ := t
      cases ac with
      | none =>
          cases tg with
          | none => simp [fireTimer, hp, hpt, unsubscribe]
          | some t2 =>
              have hs := setState_unsubscribe ({ m with pending := m.pending.eraseIdx i }) id t2
              simp only [fireTimer, hp, hpt]
              refine ⟨?_, ?_, ?_⟩
              · show (setState (unsubscribe { m with pending := m.pending.eraseIdx i } id) t2).err
                    = (setState { m with pending := m.pending.eraseIdx i } t2).err
                exact hs.1
              · show (setState (unsubscribe { m with pending := m.pending.eraseIdx i } id) t2).m
                    = unsubscribe (setState { m with pending := m.pending.eraseIdx i } t2).m id
                exact hs.2.1
              · show ([] : List Notif)
                      ++ (setState (unsubscribe { m with pending := m.pending.eraseIdx i } id)
                          t2).notifs
                    = (([] : List Notif)
                      ++ (setState { m with pending := m.pending.eraseIdx i } t2).notifs).filter
                        (fun n => n.sub != id)
                simp [hs.2.2]
      | some a =>
          have hea := executeAction_unsubscribe ({ m with pending := m.pending.eraseIdx i })
            id a JVal.undef
          cases tg with
          | none =>
              simp only [fireTimer, hp, hpt]
              exact hea
          | some t2 =>
              have hs := setState_unsubscribe
                (executeAction { m with pending := m.pending.eraseIdx i } a JVal.undef).m id t2
              simp only [fireTimer, hp, hpt]
              refine ⟨?_, ?_, ?_⟩
              · show (setState (executeAction
                      (unsubscribe { m with pending := m.pending.eraseIdx i } id)
                      a JVal.undef).m t2).err
                    = (setState (executeAction { m with pending := m.pending.eraseIdx i }
                      a JVal.undef).m t2).err
                rw [hea.2.1]; exact hs.1
              · show (setState (executeAction
                      (unsubscribe { m with pending := m.pending.eraseIdx i } id)
                      a JVal.undef).m t2).m
                    = unsubscribe (setState (executeAction
                      { m with pending := m.pending.eraseIdx i } a JVal.undef).m t2).m id
                rw [hea.2.1]; exact hs.2.1
              · show (executeAction (unsubscribe { m with pending := m.pending.eraseIdx i } id)
                      a JVal.undef).notifs
                    ++ (setState (executeAction
                        (unsubscribe { m with pending := m.pending.eraseIdx i } id)
                        a JVal.undef).m t2).notifs
                    = ((executeAction { m with pending := m.pending.eraseIdx i }
                        a JVal.undef).notifs
                      ++ (setState (executeAction { m with pending := m.pending.eraseIdx i }
                        a JVal.undef).m t2).notifs).filter (fun n => n.sub != id)
                rw [List.filter_append, hea.2.2, hea.2.1, hs.2.2]

/-- C6: after invoking the unsubscribe closure for a subscriber, that
subscriber receives no notification from any subsequent `send`, `start` or
timer firing, while the run is otherwise unchanged: every remaining
subscriber receives exactly the notifications it would have received, in
the same order, and the machine evolves identically (up to the removed
subscriber entry). -/
theorem c6_unsubscribe_isolation :
    ∀ (m : Machine) (id : Nat) (ev : String) (d : List JVal) (i : Nat),
      ((send (unsubscribe m id) ev d).notifs.all (fun n => n.sub != id) = true)
      ∧ (send (unsubscribe m id) ev d).notifs
          = (send m ev d).notifs.filter (fun n => n.sub != id)
      ∧ (send (unsubscribe m id) ev d).m = unsubscribe (send m ev d).m id
      ∧ (send (unsubscribe m id) ev d).err = (send m ev d).err
      ∧ (start (unsubscribe m id)).notifs
          = (start m).notifs.filter (fun n => n.sub != id)
      ∧ (fireTimer (unsubscribe m id) i).notifs
          = (fireTimer m i).notifs.filter (fun n => n.sub != id) := by
  intro m id ev d i
  have hsend := send_unsubscribe m id ev d
  have hstart := setState_unsubscribe m id m.initialState
  have hfire := fireTimer_unsubscribe m id i
  refine ⟨?_, hsend.2.2, hsend.2.1, hsend.1, hstart.2.2, hfire.2.2⟩
  rw [hsend.2.2, List.all_eq_true]
  intro n hn
  exact (List.mem_filter.mp hn).2

end Miuz
